import Mathlib

/-!
Verification of the PCI resource-access module (`Pci.py`).

The module provides:
 - `Address` / `Id` value types parsed from hex strings (regex
   `(?:(?:(\w+):)?(\w+):)?(\w+)(?:\.(\w+))?$` for addresses, `(\w+):(\w+)$`
   for ids, components converted with Python `int(s, 16)`), with range
   assertions at construction;
 - a `Resource` layer reading/writing 8/16/32-bit little-endian values at
   logical addresses, translated by `_mmapOffset` before indexing the
   backing store, with optional alignment / bounds validation;
 - two backing stores: a direct memory mapping (`MmapResource`) and an
   emulated one over seek/read/write (`_PseudoMmap`), whose `__len__`
   substitutes `sys.maxsize` when the file size is 0.

The backing store is modelled as a `List Nat` of byte values; the two
backends are modelled as records of indexing primitives over that list.
Exceptions are modelled by `Except PciError`; the constructors follow the
specification's error taxonomy, with the payloads that appear in the
corresponding Python error messages.
-/

/-- Error taxonomy of the module. `rangeError addr size` models
`ValueError('Address ... out of range (resource size ...)')`,
`alignmentError addr k` models `ValueError('Address ... is not a multiple of k')`,
`valueRangeError v` models `ValueError('Value ... out of range')`,
`fieldRangeError` models the `assert` failures on Address/Id fields,
`formatError` models a failed regex match or a failed `int(s, 16)`, and
`oob` models the raw IndexError / struct.error escapes of an unchecked
out-of-bounds access. -/
inductive PciError where
  | formatError
  | fieldRangeError
  | rangeError (addr size : Nat)
  | alignmentError (addr mult : Nat)
  | valueRangeError (value : Nat)
  | oob
deriving DecidableEq, Repr

deriving instance DecidableEq for Except

/-- Model of `Resource._checkAddr8`: `addr` below `_mmapOffset`, or at or
past `len(mmap_) + _mmapOffset` when the length is nonzero, is rejected. -/
def checkAddr8 (len offset addr : Nat) : Except PciError Unit :=
  if addr < offset ∨ (len ≠ 0 ∧ addr ≥ len + offset) then
    .error (.rangeError addr len)
  else .ok ()

/-- Model of `Resource._checkAddr16`: alignment to 2 is checked first, then
the bounds of the two bytes `addr, addr+1`. -/
def checkAddr16 (len offset addr : Nat) : Except PciError Unit :=
  if addr % 2 ≠ 0 then .error (.alignmentError addr 2)
  else if addr < offset ∨ (len ≠ 0 ∧ addr + 1 ≥ len + offset) then
    .error (.rangeError addr len)
  else .ok ()

/-- Model of `Resource._checkAddr32`: alignment to 4 is checked first, then
the bounds of the four bytes `addr .. addr+3`. -/
def checkAddr32 (len offset addr : Nat) : Except PciError Unit :=
  if addr % 4 ≠ 0 then .error (.alignmentError addr 4)
  else if addr < offset ∨ (len ≠ 0 ∧ addr + 3 ≥ len + offset) then
    .error (.rangeError addr len)
  else .ok ()

/-- Decoding of `struct.unpack('<H', bs)`: exactly two bytes, little-endian. -/
def unpack16 : List Nat → Option Nat
  | [b0, b1] => some (b0 + 256 * b1)
  | _ => none

/-- Decoding of `struct.unpack('<L', bs)`: exactly four bytes, little-endian. -/
def unpack32 : List Nat → Option Nat
  | [b0, b1, b2, b3] => some (b0 + 256 * b1 + 65536 * b2 + 16777216 * b3)
  | _ => none

/-- Encoding of `struct.pack('<H', v)`: little-endian bytes; `struct.pack`
raises for a value that does not fit the width. -/
def pack16 (v : Nat) : Option (List Nat) :=
  if v ≤ 0xffff then some [v % 256, v / 256] else none

/-- Encoding of `struct.pack('<L', v)`: little-endian bytes; `struct.pack`
raises for a value that does not fit the width. -/
def pack32 (v : Nat) : Option (List Nat) :=
  if v ≤ 0xffffffff then
    some [v % 256, v / 256 % 256, v / 65536 % 256, v / 16777216 % 256]
  else none

/-- A backing store (the object held in `self.mmap_`), presented through the
indexing operations the `Resource` methods use. `getByte m i` models
`m[i]` followed by `struct.unpack('<B', ...)` (`none` when that raises);
`getRange m a b` models the byte string `m[a : b]`; the setters return
`none` where the Python operation raises. -/
structure Backend where
  length : List Nat → Nat
  getByte : List Nat → Nat → Option Nat
  getRange : List Nat → Nat → Nat → List Nat
  setByte : List Nat → Nat → Nat → Option (List Nat)
  setRange : List Nat → Nat → Nat → List Nat → Option (List Nat)

/-- Slice assignment `m[a : b] = bs` on an `mmap` object: the slice bounds
are clamped to the map's length and the assigned bytes must have exactly
the size of the clamped slice, otherwise IndexError. -/
def mmapSetRange (m : List Nat) (a b : Nat) (bs : List Nat) : Option (List Nat) :=
  let start := min a m.length
  let stop := min b m.length
  if bs.length = stop - start then some (m.take start ++ bs ++ m.drop stop)
  else none

/-- The directly-mapped backend (`MmapResource`): `self.mmap_` is a real
`mmap` object over the resource bytes. -/
def mmapBackend : Backend where
  length m := m.length
  getByte m i := m[i]?
  getRange m a b := (m.drop a).take (b - a)
  setByte m i v := if i < m.length then some (m.set i v) else none
  setRange := mmapSetRange

/-- Model of `sys.maxsize` on the 64-bit platform the module runs on. -/
def maxsize : Nat := 2 ^ 63 - 1

/-- Model of `_PseudoMmap.__len__`: `os.fstat(...).st_size or sys.maxsize` —
the file size, except that a 0 size is replaced by `sys.maxsize`. -/
def pseudoLen (m : List Nat) : Nat :=
  if m.length = 0 then maxsize else m.length

/-- Positioned file write: `seek(start)` then `write(bs)`. A write past the
end of the file first extends it with zero bytes. -/
def fileWrite (m : List Nat) (start : Nat) (bs : List Nat) : List Nat :=
  m.take start ++ List.replicate (start - m.length) 0 ++ bs ++ m.drop (start + bs.length)

/-- The emulated backend (`PseudoMmapResource` over `_PseudoMmap`): integer
indexing seeks and reads/writes one byte; slice indexing is translated by
`slice.indices(len(self))` — which clamps against `pseudoLen`, not the raw
file size — followed by a positioned read/write of the resulting range
(the assigned bytes must match the translated size exactly, per the
`assert` in `__setitem__`). In the `Resource` methods every slice `[a : b]`
has `a ≤ b`, so the translated size is `stop - start`. -/
def pseudoBackend : Backend where
  length := pseudoLen
  getByte m i :=
    match (m.drop i).take 1 with
    | [b] => some b
    | _ => none
  getRange m a b :=
    let start := min a (pseudoLen m)
    let stop := min b (pseudoLen m)
    (m.drop start).take (stop - start)
  setByte m i v := some (fileWrite m i [v])
  setRange m a b bs :=
    let start := min a (pseudoLen m)
    let stop := min b (pseudoLen m)
    if bs.length = stop - start then some (fileWrite m start bs) else none

/-- Model of `Resource.read8`: optional check, then translation by
`_mmapOffset`, then a single-byte access unpacked with `'<B'`. -/
def read8 (bk : Backend) (m : List Nat) (offset addr : Nat) (check : Bool) :
    Except PciError Nat :=
  match (if check then checkAddr8 (bk.length m) offset addr else .ok ()) with
  | .error e => .error e
  | .ok _ =>
    match bk.getByte m (addr - offset) with
    | some b => .ok b
    | none => .error .oob

/-- Model of `Resource.read16`: optional check, then translation by
`_mmapOffset`, then `mmap_[addr : addr+2]` unpacked with `'<H'`. -/
def read16 (bk : Backend) (m : List Nat) (offset addr : Nat) (check : Bool) :
    Except PciError Nat :=
  match (if check then checkAddr16 (bk.length m) offset addr else .ok ()) with
  | .error e => .error e
  | .ok _ =>
    match unpack16 (bk.getRange m (addr - offset) (addr - offset + 2)) with
    | some v => .ok v
    | none => .error .oob

/-- Model of `Resource.read32`: optional check, then translation by
`_mmapOffset`, then `mmap_[addr : addr+4]` unpacked with `'<L'`. -/
def read32 (bk : Backend) (m : List Nat) (offset addr : Nat) (check : Bool) :
    Except PciError Nat :=
  match (if check then checkAddr32 (bk.length m) offset addr else .ok ()) with
  | .error e => .error e
  | .ok _ =>
    match unpack32 (bk.getRange m (addr - offset) (addr - offset + 4)) with
    | some v => .ok v
    | none => .error .oob

/-- Model of `Resource.write8`: optional address check and value range
check, then translation, then `mmap_[addr] = struct.pack('<B', value)`
(where `struct.pack` itself raises for a value above `0xff`). -/
def write8 (bk : Backend) (m : List Nat) (offset addr v : Nat) (check : Bool) :
    Except PciError (List Nat) :=
  match (if check then checkAddr8 (bk.length m) offset addr else .ok ()) with
  | .error e => .error e
  | .ok _ =>
    match (if check ∧ 0xff < v then .error (.valueRangeError v) else .ok () : Except PciError Unit) with
    | .error e => .error e
    | .ok _ =>
      if v ≤ 0xff then
        match bk.setByte m (addr - offset) v with
        | some m2 => .ok m2
        | none => .error .oob
      else .error .oob

/-- Model of `Resource.write16`: optional address check and value range
check, then translation, then `mmap_[addr : addr+2] = struct.pack('<H', value)`. -/
def write16 (bk : Backend) (m : List Nat) (offset addr v : Nat) (check : Bool) :
    Except PciError (List Nat) :=
  match (if check then checkAddr16 (bk.length m) offset addr else .ok ()) with
  | .error e => .error e
  | .ok _ =>
    match (if check ∧ 0xffff < v then .error (.valueRangeError v) else .ok () : Except PciError Unit) with
    | .error e => .error e
    | .ok _ =>
      match pack16 v with
      | none => .error .oob
      | some bs =>
        match bk.setRange m (addr - offset) (addr - offset + 2) bs with
        | some m2 => .ok m2
        | none => .error .oob

/-- Model of `Resource.write32`: optional address check and value range
check, then translation, then `mmap_[addr : addr+4] = struct.pack('<L', value)`. -/
def write32 (bk : Backend) (m : List Nat) (offset addr v : Nat) (check : Bool) :
    Except PciError (List Nat) :=
  match (if check then checkAddr32 (bk.length m) offset addr else .ok ()) with
  | .error e => .error e
  | .ok _ =>
    match (if check ∧ 0xffffffff < v then .error (.valueRangeError v) else .ok () : Except PciError Unit) with
    | .error e => .error e
    | .ok _ =>
      match pack32 v with
      | none => .error .oob
      | some bs =>
        match bk.setRange m (addr - offset) (addr - offset + 4) bs with
        | some m2 => .ok m2
        | none => .error .oob

/-! ## Identifier types: parsing and construction -/

/-- A character matched by `\w` in a Python 2 byte-string pattern:
`[a-zA-Z0-9_]`. -/
def isWordChar (c : Char) : Bool := c.isAlphanum || c == '_'

/-- A nonempty run of `\w` characters (one regex component). -/
def isWordRun (l : List Char) : Bool := !l.isEmpty && l.all isWordChar

/-- Splits a character list at every occurrence of `sep` (the separators are
consumed; empty components are kept). -/
def splitOnChar (sep : Char) : List Char → List (List Char)
  | [] => [[]]
  | c :: cs =>
    if c == sep then [] :: splitOnChar sep cs
    else
      match splitOnChar sep cs with
      | [] => [[c]]
      | p :: ps => (c :: p) :: ps

/-- Python's `$` anchor (without `re.M`) also matches just before a single
trailing newline, so a match of `...$` may leave one final `'\n'`
unconsumed. -/
def chopDollar (s : List Char) : List Char :=
  if s.getLast? = some '\n' then s.dropLast else s

/-- Value of one hexadecimal digit as accepted by Python `int(s, 16)`. -/
def hexVal? (c : Char) : Option Nat :=
  if '0' ≤ c ∧ c ≤ '9' then some (c.toNat - 48)
  else if 'a' ≤ c ∧ c ≤ 'f' then some (c.toNat - 87)
  else if 'A' ≤ c ∧ c ≤ 'F' then some (c.toNat - 55)
  else none

/-- Values of a run of hexadecimal digits (`none` if any character is not a
hexadecimal digit). -/
def hexDigitsVal : List Char → Option (List Nat)
  | [] => some []
  | c :: cs =>
    match hexVal? c, hexDigitsVal cs with
    | some d, some ds => some (d :: ds)
    | _, _ => none

/-- Horner evaluation of a big-endian digit list, as `int(s, 16)` does. -/
def hornerHex (ds : List Nat) : Nat := ds.foldl (fun a d => 16 * a + d) 0

/-- Numeric value of a nonempty hexadecimal digit run. -/
def pyHexCore (s : List Char) : Option Nat :=
  if s.isEmpty then none else (hexDigitsVal s).map hornerHex

/-- Python `int(s, 16)` accepts an optional `0x` / `0X` mark before the
digits; this removes it. (The sign and surrounding whitespace that
`int` would also accept cannot occur in a `\w+` component.) -/
def hexMarkDrop : List Char → List Char
  | c0 :: c1 :: rest =>
    if c0 == '0' && (c1 == 'x' || c1 == 'X') then rest else c0 :: c1 :: rest
  | s => s

/-- Model of `_hexnum` on a string component: Python `int(s, 16)` restricted
to the characters a `\w+` component can contain. -/
def pyHex (s : List Char) : Option Nat := pyHexCore (hexMarkDrop s)

/-- Model of `_hexnum` on an optional regex group: `_hexnum(None)` falls
into the final `else` branch and returns 0, which is how absent optional
components default to 0. -/
def hexnum? : Option (List Char) → Option Nat
  | none => some 0
  | some t => pyHex t

/-- Groups of the address regex `(?:(?:(\w+):)?(\w+):)?(\w+)(?:\.(\w+))?$`. -/
structure AddrGroups where
  dom : Option (List Char)
  bus : Option (List Char)
  slot : List Char
  fn : Option (List Char)
deriving DecidableEq, Repr

/-- Matches the trailing `(\w+)(?:\.(\w+))?` part (slot and optional
function) of the address regex against a colon-free section. -/
def matchSlotFun (p : List Char) : Option (List Char × Option (List Char)) :=
  match splitOnChar '.' p with
  | [s] => if isWordRun s then some (s, none) else none
  | [s, f] => if isWordRun s && isWordRun f then some (s, some f) else none
  | _ => none

/-- Match of `re.match("(?:(?:(\w+):)?(\w+):)?(\w+)(?:\.(\w+))?$", s)`.
Because `\w` matches neither `':'` nor `'.'`, a match decomposes the string
(up to the newline the `$` anchor may leave) uniquely into at most three
colon-separated sections, the last holding slot and optional function. -/
def matchAddrRegex (s0 : List Char) : Option AddrGroups :=
  match splitOnChar ':' (chopDollar s0) with
  | [p] => (matchSlotFun p).map fun x => ⟨none, none, x.1, x.2⟩
  | [b, p] =>
    if isWordRun b then (matchSlotFun p).map fun x => ⟨none, some b, x.1, x.2⟩
    else none
  | [d, b, p] =>
    if isWordRun d && isWordRun b then
      (matchSlotFun p).map fun x => ⟨some d, some b, x.1, x.2⟩
    else none
  | _ => none

/-- Match of `re.match("(\w+):(\w+)$", s)` for `Id`. -/
def matchIdRegex (s0 : List Char) : Option (List Char × List Char) :=
  match splitOnChar ':' (chopDollar s0) with
  | [v, d] => if isWordRun v && isWordRun d then some (v, d) else none
  | _ => none

/-- A PCI device address: domain, bus, slot, function. -/
structure Address where
  domain : Nat
  bus : Nat
  slot : Nat
  function : Nat
deriving DecidableEq, Repr

/-- A PCI vendor/device id pair (the source's `Id`; renamed because `Id`
already exists in Lean core). -/
structure PciId where
  vendor : Nat
  device : Nat
deriving DecidableEq, Repr

/-- Model of `Address.__init__` on numeric fields: the regex match raises
TypeError (caught and ignored), `_hexnum` passes integers through, then the
range assertions run. The domain assertion is commented out in the source,
so the domain is not constrained. -/
def Address.fromFields (d b s f : Nat) : Except PciError Address :=
  if b ≤ 0x100 ∧ s ≤ 0x1f ∧ f ≤ 7 then .ok ⟨d, b, s, f⟩
  else .error .fieldRangeError

/-- Model of `Address.__init__` on a string: regex match (failure escapes as
an uncaught exception — the spec's FormatError), `_hexnum` on each group
(`int(s, 16)` failure is likewise the spec's FormatError), then the range
assertions. -/
def Address.fromString (s : List Char) : Except PciError Address :=
  match matchAddrRegex s with
  | none => .error .formatError
  | some g =>
    match hexnum? g.dom, hexnum? g.bus, pyHex g.slot, hexnum? g.fn with
    | some d, some b, some sl, some f =>
      if b ≤ 0x100 ∧ sl ≤ 0x1f ∧ f ≤ 7 then .ok ⟨d, b, sl, f⟩
      else .error .fieldRangeError
    | _, _, _, _ => .error .formatError

/-- Model of `Id.__init__` on numeric fields. -/
def PciId.fromFields (v d : Nat) : Except PciError PciId :=
  if v ≤ 0xffff ∧ d ≤ 0xffff then .ok ⟨v, d⟩
  else .error .fieldRangeError

/-- Model of `Id.__init__` on a string. -/
def PciId.fromString (s : List Char) : Except PciError PciId :=
  match matchIdRegex s with
  | none => .error .formatError
  | some g =>
    match pyHex g.1, pyHex g.2 with
    | some v, some d =>
      if v ≤ 0xffff ∧ d ≤ 0xffff then .ok ⟨v, d⟩
      else .error .fieldRangeError
    | _, _ => .error .formatError

/-- Model of `Address.devfn`: `(slot << 3) | function`. -/
def Address.devfn (a : Address) : Nat := (a.slot <<< 3) ||| a.function

/-- Little-endian hexadecimal digits of `n` (empty for 0), computed with a
structural fuel argument so that the kernel can evaluate it; `n` itself is
always enough fuel. -/
def hexDigitsRev : Nat → Nat → List Nat
  | _, 0 => []
  | 0, _ + 1 => []
  | fuel + 1, n + 1 => (n + 1) % 16 :: hexDigitsRev fuel ((n + 1) / 16)

/-- Big-endian hexadecimal digits of `n` (empty for 0). -/
def toHexDigits (n : Nat) : List Nat := (hexDigitsRev n n).reverse

/-- Left-pads a digit list with zeros to width `w`. -/
def padLeft (w : Nat) (l : List Nat) : List Nat :=
  List.replicate (w - l.length) 0 ++ l

/-- Python `"%0wx" % n`: lower-case hexadecimal, zero-padded to at least
`w` characters. -/
def hexPad (w n : Nat) : List Char :=
  (padLeft w (toHexDigits n)).map Nat.digitChar

/-- Model of `Address.__str__`: `"%04x:%02x:%02x.%01x"`. -/
def Address.toStr (a : Address) : List Char :=
  hexPad 4 a.domain ++ ':' :: (hexPad 2 a.bus ++ ':' :: (hexPad 2 a.slot
    ++ '.' :: hexPad 1 a.function))

/-- Model of `Id.__str__`: `"%04x:%04x"`. -/
def PciId.toStr (i : PciId) : List Char :=
  hexPad 4 i.vendor ++ ':' :: hexPad 4 i.device

theorem pciIdToStr_eq (i : PciId) :
    i.toStr = hexPad 4 i.vendor ++ ':' :: hexPad 4 i.device := rfl

/-! ## Helper lemmas -/

theorem splitOnChar_not_mem {sep : Char} : ∀ {a : List Char}, sep ∉ a →
    splitOnChar sep a = [a]
  | [], _ => rfl
  | c :: cs, h => by
    have hc : ¬((c == sep) = true) := by
      simp only [beq_iff_eq]
      intro hcc
      exact h (hcc ▸ List.mem_cons_self c cs)
    have ih := splitOnChar_not_mem (a := cs) fun hm => h (List.mem_cons_of_mem c hm)
    simp only [splitOnChar]
    rw [if_neg hc, ih]

theorem splitOnChar_append {sep : Char} : ∀ {a : List Char} (b : List Char),
    sep ∉ a → splitOnChar sep (a ++ sep :: b) = a :: splitOnChar sep b
  | [], b, _ => by simp [splitOnChar]
  | c :: cs, b, h => by
    have hc : ¬((c == sep) = true) := by
      simp only [beq_iff_eq]
      intro hcc
      exact h (hcc ▸ List.mem_cons_self c cs)
    have ih := splitOnChar_append (a := cs) b fun hm => h (List.mem_cons_of_mem c hm)
    simp only [List.cons_append, splitOnChar]
    rw [if_neg hc]
    simp only [List.append_eq]
    rw [ih]

theorem chopDollar_of_not_newline {s : List Char} (h : '\n' ∉ s) :
    chopDollar s = s := by
  unfold chopDollar
  split
  · next hl =>
    exfalso
    rcases List.mem_getLast?_eq_getLast hl with ⟨hne, hval⟩
    exact h (hval ▸ List.getLast_mem hne)
  · rfl

theorem digitChar_props : ∀ d < 16, isWordChar (Nat.digitChar d) = true ∧
    Nat.digitChar d ≠ ':' ∧ Nat.digitChar d ≠ '.' ∧ Nat.digitChar d ≠ '\n' ∧
    Nat.digitChar d ≠ 'x' ∧ Nat.digitChar d ≠ 'X' ∧
    hexVal? (Nat.digitChar d) = some d := by decide

theorem hexDigitsRev_eq_digits : ∀ fuel n, n ≤ fuel → hexDigitsRev fuel n = Nat.digits 16 n := by
  intro fuel
  induction fuel with
  | zero =>
    intro n hn
    have : n = 0 := by omega
    subst this
    simp [hexDigitsRev]
  | succ f ih =>
    intro n hn
    cases n with
    | zero => simp [hexDigitsRev]
    | succ k =>
      have hdiv : (k + 1) / 16 ≤ f := by
        have := Nat.div_lt_self (Nat.succ_pos k) (by norm_num : 1 < 16)
        omega
      rw [hexDigitsRev, ih ((k + 1) / 16) hdiv,
        Nat.digits_def' (by norm_num : 1 < 16) (Nat.succ_pos k)]

theorem toHexDigits_eq (n : Nat) : toHexDigits n = (Nat.digits 16 n).reverse := by
  unfold toHexDigits
  rw [hexDigitsRev_eq_digits n n le_rfl]

theorem padLeft_toHexDigits_lt {w n : Nat} :
    ∀ x ∈ padLeft w (toHexDigits n), x < 16 := by
  intro x hx
  rcases List.mem_append.mp hx with hr | hd
  · have := List.eq_of_mem_replicate hr
    omega
  · rw [toHexDigits_eq] at hd
    exact Nat.digits_lt_base (by norm_num) (List.mem_reverse.mp hd)

theorem hexPad_length {w n : Nat} : w ≤ (hexPad w n).length := by
  unfold hexPad padLeft
  simp only [List.length_map, List.length_append, List.length_replicate]
  omega

theorem hexPad_ne_nil {w n : Nat} (hw : 1 ≤ w) : hexPad w n ≠ [] := by
  intro hnil
  have h := hexPad_length (w := w) (n := n)
  rw [hnil] at h
  simp only [List.length_nil] at h
  omega

theorem hexPad_mem_props {w n : Nat} :
    ∀ c ∈ hexPad w n, isWordChar c = true ∧ c ≠ ':' ∧ c ≠ '.' ∧ c ≠ '\n' ∧
      c ≠ 'x' ∧ c ≠ 'X' := by
  intro c hc
  rcases List.mem_map.mp hc with ⟨d, hd, hdc⟩
  have hp := digitChar_props d (padLeft_toHexDigits_lt d hd)
  exact ⟨hdc ▸ hp.1, hdc ▸ hp.2.1, hdc ▸ hp.2.2.1, hdc ▸ hp.2.2.2.1,
    hdc ▸ hp.2.2.2.2.1, hdc ▸ hp.2.2.2.2.2.1⟩

theorem hexPad_facts {w n : Nat} (hw : 1 ≤ w) :
    isWordRun (hexPad w n) = true ∧ ':' ∉ hexPad w n ∧ '.' ∉ hexPad w n ∧
      '\n' ∉ hexPad w n := by
  refine ⟨?_, fun hm => ((hexPad_mem_props _ hm).2.1 rfl),
    fun hm => ((hexPad_mem_props _ hm).2.2.1 rfl),
    fun hm => ((hexPad_mem_props _ hm).2.2.2.1 rfl)⟩
  unfold isWordRun
  rw [Bool.and_eq_true, List.all_eq_true]
  constructor
  · rw [Bool.not_eq_true', List.isEmpty_eq_false]
    exact hexPad_ne_nil hw
  · exact fun c hc => (hexPad_mem_props c hc).1

theorem hexDigitsVal_map {l : List Nat} (h : ∀ x ∈ l, x < 16) :
    hexDigitsVal (l.map Nat.digitChar) = some l := by
  induction l with
  | nil => rfl
  | cons d t ih =>
    have hd := (digitChar_props d (h d (List.mem_cons_self d t))).2.2.2.2.2.2
    have ht := ih fun x hx => h x (List.mem_cons_of_mem d hx)
    simp only [List.map_cons, hexDigitsVal, hd, ht]

theorem foldl_horner (l : List Nat) : ∀ a : Nat,
    List.foldl (fun x d => 16 * x + d) a l =
      Nat.ofDigits 16 l.reverse + a * 16 ^ l.length := by
  induction l with
  | nil => intro a; simp [Nat.ofDigits]
  | cons d t ih =>
    intro a
    rw [List.foldl_cons, ih (16 * a + d), List.reverse_cons, Nat.ofDigits_append]
    simp only [Nat.ofDigits_cons, Nat.ofDigits_nil, List.length_reverse, List.length_cons]
    ring

theorem ofDigits_replicate_zero : ∀ k : Nat, Nat.ofDigits 16 (List.replicate k 0) = 0
  | 0 => rfl
  | k + 1 => by
    rw [List.replicate_succ, Nat.ofDigits_cons, ofDigits_replicate_zero k]

theorem hexMarkDrop_hexPad {w n : Nat} : hexMarkDrop (hexPad w n) = hexPad w n := by
  cases hmap : hexPad w n with
  | nil => rfl
  | cons c0 t =>
    cases t with
    | nil => rfl
    | cons c1 t2 =>
      have hc1 : c1 ≠ 'x' ∧ c1 ≠ 'X' := by
        have hmem : c1 ∈ hexPad w n := by
          rw [hmap]; exact List.mem_cons_of_mem c0 (List.mem_cons_self c1 t2)
        have hp := hexPad_mem_props c1 hmem
        exact ⟨hp.2.2.2.2.1, hp.2.2.2.2.2⟩
      have hcond : (c0 == '0' && (c1 == 'x' || c1 == 'X')) = false := by
        rcases hc1 with ⟨h1, h2⟩
        simp [h1, h2]
      simp [hexMarkDrop, hcond]

theorem hornerHex_padLeft {w n : Nat} : hornerHex (padLeft w (toHexDigits n)) = n := by
  unfold hornerHex
  rw [foldl_horner, Nat.zero_mul, Nat.add_zero]
  unfold padLeft
  rw [toHexDigits_eq, List.reverse_append, List.reverse_reverse, List.reverse_replicate,
    Nat.ofDigits_append, Nat.ofDigits_digits, ofDigits_replicate_zero, Nat.mul_zero,
    Nat.add_zero]

theorem pyHex_hexPad {w n : Nat} (hw : 1 ≤ w) : pyHex (hexPad w n) = some n := by
  rw [pyHex, hexMarkDrop_hexPad]
  unfold pyHexCore
  rw [if_neg (by rw [List.isEmpty_eq_true]; exact hexPad_ne_nil hw)]
  have : hexDigitsVal (hexPad w n) = some (padLeft w (toHexDigits n)) :=
    hexDigitsVal_map padLeft_toHexDigits_lt
  rw [this, Option.map_some', hornerHex_padLeft]

theorem not_mem_addr_shape {c : Char} {A B C D : List Char} (hA : c ∉ A)
    (hB : c ∉ B) (hC : c ∉ C) (hD : c ∉ D) (h1 : c ≠ ':') (h2 : c ≠ '.') :
    c ∉ A ++ ':' :: (B ++ ':' :: (C ++ '.' :: D)) := by
  intro hm
  simp only [List.mem_append, List.mem_cons] at hm
  tauto

theorem matchAddrRegex_toStr (a : Address) :
    matchAddrRegex a.toStr =
      some ⟨some (hexPad 4 a.domain), some (hexPad 2 a.bus), hexPad 2 a.slot,
        some (hexPad 1 a.function)⟩ := by
  have h4 := hexPad_facts (w := 4) (n := a.domain) (by norm_num)
  have h2b := hexPad_facts (w := 2) (n := a.bus) (by norm_num)
  have h2s := hexPad_facts (w := 2) (n := a.slot) (by norm_num)
  have h1f := hexPad_facts (w := 1) (n := a.function) (by norm_num)
  have hnl : '\n' ∉ a.toStr :=
    not_mem_addr_shape h4.2.2.2 h2b.2.2.2 h2s.2.2.2 h1f.2.2.2 (by decide) (by decide)
  have hns : ':' ∉ hexPad 2 a.slot ++ '.' :: hexPad 1 a.function := by
    intro hm
    rcases List.mem_append.mp hm with h | h
    · exact h2s.2.1 h
    · rcases List.mem_cons.mp h with h | h
      · exact absurd h (by decide)
      · exact h1f.2.1 h
  have hsf : matchSlotFun (hexPad 2 a.slot ++ '.' :: hexPad 1 a.function) =
      some (hexPad 2 a.slot, some (hexPad 1 a.function)) := by
    unfold matchSlotFun
    rw [splitOnChar_append _ h2s.2.2.1, splitOnChar_not_mem h1f.2.2.1]
    simp only [h2s.1, h1f.1, Bool.and_self, if_true]
  have hsplit : splitOnChar ':' a.toStr =
      [hexPad 4 a.domain, hexPad 2 a.bus,
        hexPad 2 a.slot ++ '.' :: hexPad 1 a.function] := by
    unfold Address.toStr
    rw [splitOnChar_append _ h4.2.1, splitOnChar_append _ h2b.2.1,
      splitOnChar_not_mem hns]
  unfold matchAddrRegex
  rw [chopDollar_of_not_newline hnl, hsplit]
  simp only [h4.1, h2b.1, Bool.and_self, if_true, hsf, Option.map_some']

theorem fromString_toStr (a : Address) (hb : a.bus ≤ 0x100) (hs : a.slot ≤ 0x1f)
    (hf : a.function ≤ 7) : Address.fromString a.toStr = .ok a := by
  unfold Address.fromString
  rw [matchAddrRegex_toStr]
  simp only [hexnum?]
  rw [pyHex_hexPad (w := 4) (by norm_num), pyHex_hexPad (w := 2) (by norm_num),
    pyHex_hexPad (w := 2) (by norm_num), pyHex_hexPad (w := 1) (by norm_num)]
  show (if a.bus ≤ 0x100 ∧ a.slot ≤ 0x1f ∧ a.function ≤ 7 then
      (Except.ok ⟨a.domain, a.bus, a.slot, a.function⟩ : Except PciError Address)
    else .error .fieldRangeError) = .ok a
  rw [if_pos ⟨hb, hs, hf⟩]

theorem checkAddr8_ok {len offset addr : Nat} (h1 : offset ≤ addr)
    (h2 : addr < offset + len) : checkAddr8 len offset addr = .ok () := by
  unfold checkAddr8
  rw [if_neg (by omega)]

theorem checkAddr16_ok {len offset addr : Nat} (h0 : addr % 2 = 0)
    (h1 : offset ≤ addr) (h2 : addr + 1 < offset + len) :
    checkAddr16 len offset addr = .ok () := by
  unfold checkAddr16
  rw [if_neg (by omega), if_neg (by omega)]

theorem checkAddr32_ok {len offset addr : Nat} (h0 : addr % 4 = 0)
    (h1 : offset ≤ addr) (h2 : addr + 3 < offset + len) :
    checkAddr32 len offset addr = .ok () := by
  unfold checkAddr32
  rw [if_neg (by omega), if_neg (by omega)]

theorem splice_length {m bs tail : List Nat} {i k : Nat} (hik : i + k ≤ m.length)
    (hbs : bs.length = k) (htail : tail = m.drop (i + k)) :
    (m.take i ++ (bs ++ tail)).length = m.length := by
  subst htail
  simp only [List.length_append, List.length_take, List.length_drop]
  omega

theorem splice_drop {m l : List Nat} {i : Nat} (h : i ≤ m.length) :
    (m.take i ++ l).drop i = l :=
  List.drop_left' (List.length_take_of_le h)

theorem splice_getByte {m l : List Nat} {i : Nat} (h : i ≤ m.length) :
    (m.take i ++ l)[i]? = l[0]? := by
  rw [List.getElem?_append_right (by rw [List.length_take_of_le h])]
  rw [List.length_take_of_le h, Nat.sub_self]

theorem unpack32_le (v : Nat) (hv : v ≤ 0xffffffff) :
    unpack32 [v % 256, v / 256 % 256, v / 65536 % 256, v / 16777216 % 256] = some v := by
  show some (v % 256 + 256 * (v / 256 % 256) + 65536 * (v / 65536 % 256)
    + 16777216 * (v / 16777216 % 256)) = some v
  congr 1
  have e1 : v / 65536 = v / 256 / 256 := by rw [Nat.div_div_eq_div_mul]
  have e2 : v / 16777216 = v / 65536 / 256 := by rw [Nat.div_div_eq_div_mul]
  omega

theorem mmap_c1 (m : List Nat) (offset addr v : Nat) (h1 : offset ≤ addr)
    (h2 : addr % 4 = 0) (h3 : addr + 4 ≤ offset + m.length) (hv : v ≤ 0xffffffff) :
    ∃ m2, write32 mmapBackend m offset addr v true = .ok m2 ∧
      read32 mmapBackend m2 offset addr true = .ok v ∧
      read8 mmapBackend m2 offset addr true = .ok (v % 256) := by
  have hik : addr - offset + 4 ≤ m.length := by omega
  have hi : addr - offset ≤ m.length := by omega
  refine ⟨m.take (addr - offset) ++ ([v % 256, v / 256 % 256, v / 65536 % 256,
    v / 16777216 % 256] ++ m.drop (addr - offset + 4)), ?_, ?_, ?_⟩
  · have hpack : pack32 v = some [v % 256, v / 256 % 256, v / 65536 % 256,
        v / 16777216 % 256] := by
      unfold pack32
      rw [if_pos hv]
    have hset : mmapBackend.setRange m (addr - offset) (addr - offset + 4)
        [v % 256, v / 256 % 256, v / 65536 % 256, v / 16777216 % 256] =
        some (m.take (addr - offset) ++ ([v % 256, v / 256 % 256, v / 65536 % 256,
          v / 16777216 % 256] ++ m.drop (addr - offset + 4))) := by
      show mmapSetRange m (addr - offset) (addr - offset + 4) _ = _
      unfold mmapSetRange
      rw [Nat.min_eq_left hi, Nat.min_eq_left hik]
      rw [if_pos (by simp only [List.length_cons, List.length_nil]; omega)]
      rw [List.append_assoc]
    have hchk : checkAddr32 (mmapBackend.length m) offset addr = .ok () :=
      checkAddr32_ok h2 h1 (by show addr + 3 < offset + m.length; omega)
    simp only [write32, hchk, hpack, hset, if_pos trivial]
    rw [if_neg (by simp only [true_and]; omega)]
  · have hlen : (m.take (addr - offset) ++ ([v % 256, v / 256 % 256, v / 65536 % 256,
        v / 16777216 % 256] ++ m.drop (addr - offset + 4))).length = m.length :=
      splice_length hik (by simp) rfl
    have hchk : checkAddr32 (mmapBackend.length (m.take (addr - offset)
        ++ ([v % 256, v / 256 % 256, v / 65536 % 256, v / 16777216 % 256]
          ++ m.drop (addr - offset + 4)))) offset addr = .ok () := by
      show checkAddr32 (m.take (addr - offset) ++ ([v % 256, v / 256 % 256,
        v / 65536 % 256, v / 16777216 % 256] ++ m.drop (addr - offset + 4))).length
          offset addr = .ok ()
      rw [hlen]
      exact checkAddr32_ok h2 h1 (by omega)
    have harith : addr - offset + 4 - (addr - offset) = 4 := by omega
    have htake : (([v % 256, v / 256 % 256, v / 65536 % 256, v / 16777216 % 256]
        ++ m.drop (addr - offset + 4)).take 4) = [v % 256, v / 256 % 256,
          v / 65536 % 256, v / 16777216 % 256] := List.take_left' (by simp)
    simp only [read32, mmapBackend, if_pos trivial, harith, splice_drop hi,
      htake, unpack32_le v hv]
    rw [hlen, checkAddr32_ok h2 h1 (by omega)]
  · have hlen : (m.take (addr - offset) ++ ([v % 256, v / 256 % 256, v / 65536 % 256,
        v / 16777216 % 256] ++ m.drop (addr - offset + 4))).length = m.length :=
      splice_length hik (by simp) rfl
    have hget : ((([v % 256, v / 256 % 256, v / 65536 % 256, v / 16777216 % 256]
        ++ m.drop (addr - offset + 4)))[0]?) = some (v % 256) := by
      simp
    simp only [read8, mmapBackend, if_pos trivial, splice_getByte hi, hget]
    rw [hlen, checkAddr8_ok h1 (by omega)]

theorem pseudo_c1 (m : List Nat) (offset addr v : Nat) (h1 : offset ≤ addr)
    (h2 : addr % 4 = 0) (h3 : addr + 4 ≤ offset + m.length) (hv : v ≤ 0xffffffff) :
    ∃ m2, write32 pseudoBackend m offset addr v true = .ok m2 ∧
      read32 pseudoBackend m2 offset addr true = .ok v ∧
      read8 pseudoBackend m2 offset addr true = .ok (v % 256) := by
  have hik : addr - offset + 4 ≤ m.length := by omega
  have hi : addr - offset ≤ m.length := by omega
  have hpl : pseudoLen m = m.length := by
    unfold pseudoLen
    rw [if_neg (by omega)]
  refine ⟨m.take (addr - offset) ++ ([v % 256, v / 256 % 256, v / 65536 % 256,
    v / 16777216 % 256] ++ m.drop (addr - offset + 4)), ?_, ?_, ?_⟩
  · have hpack : pack32 v = some [v % 256, v / 256 % 256, v / 65536 % 256,
        v / 16777216 % 256] := by
      unfold pack32
      rw [if_pos hv]
    have hset : pseudoBackend.setRange m (addr - offset) (addr - offset + 4)
        [v % 256, v / 256 % 256, v / 65536 % 256, v / 16777216 % 256] =
        some (m.take (addr - offset) ++ ([v % 256, v / 256 % 256, v / 65536 % 256,
          v / 16777216 % 256] ++ m.drop (addr - offset + 4))) := by
      simp only [pseudoBackend, hpl, Nat.min_eq_left hi, Nat.min_eq_left hik]
      rw [if_pos (by simp only [List.length_cons, List.length_nil]; omega)]
      unfold fileWrite
      rw [show addr - offset - m.length = 0 from by omega]
      simp only [List.replicate_zero, List.nil_append, List.length_cons,
        List.length_nil]
      rw [show addr - offset + (3 + 1) = addr - offset + 4 from by omega]
      simp
    have hchk : checkAddr32 (pseudoBackend.length m) offset addr = .ok () := by
      show checkAddr32 (pseudoLen m) offset addr = .ok ()
      rw [hpl]
      exact checkAddr32_ok h2 h1 (by omega)
    simp only [write32, hchk, hpack, hset, if_pos trivial]
    rw [if_neg (by simp only [true_and]; omega)]
  · have hlen : (m.take (addr - offset) ++ ([v % 256, v / 256 % 256, v / 65536 % 256,
        v / 16777216 % 256] ++ m.drop (addr - offset + 4))).length = m.length :=
      splice_length hik (by simp) rfl
    have hpl2 : pseudoLen (m.take (addr - offset) ++ ([v % 256, v / 256 % 256,
        v / 65536 % 256, v / 16777216 % 256] ++ m.drop (addr - offset + 4))) =
        m.length := by
      unfold pseudoLen
      rw [hlen]
      rw [if_neg (by omega)]
    have harith : addr - offset + 4 - (addr - offset) = 4 := by omega
    have htake : (([v % 256, v / 256 % 256, v / 65536 % 256, v / 16777216 % 256]
        ++ m.drop (addr - offset + 4)).take 4) = [v % 256, v / 256 % 256,
          v / 65536 % 256, v / 16777216 % 256] := List.take_left' (by simp)
    simp only [read32, pseudoBackend, hpl2, Nat.min_eq_left (by omega : addr - offset ≤ m.length),
      Nat.min_eq_left (by omega : addr - offset + 4 ≤ m.length), if_pos trivial, harith,
      splice_drop hi, htake, unpack32_le v hv]
    rw [checkAddr32_ok h2 h1 (by omega)]
  · have hlen : (m.take (addr - offset) ++ ([v % 256, v / 256 % 256, v / 65536 % 256,
        v / 16777216 % 256] ++ m.drop (addr - offset + 4))).length = m.length :=
      splice_length hik (by simp) rfl
    have hpl2 : pseudoLen (m.take (addr - offset) ++ ([v % 256, v / 256 % 256,
        v / 65536 % 256, v / 16777216 % 256] ++ m.drop (addr - offset + 4))) =
        m.length := by
      unfold pseudoLen
      rw [hlen]
      rw [if_neg (by omega)]
    have hget : ((([v % 256, v / 256 % 256, v / 65536 % 256, v / 16777216 % 256]
        ++ m.drop (addr - offset + 4))).take 1) = [v % 256] := by
      simp
    simp only [read8, pseudoBackend, hpl2, if_pos trivial, splice_drop hi, hget]
    rw [checkAddr8_ok h1 (by omega)]

/-! ## Claims -/

theorem checkAddr8_err {len offset addr : Nat}
    (h : addr < offset ∨ (len ≠ 0 ∧ addr ≥ len + offset)) :
    checkAddr8 len offset addr = .error (.rangeError addr len) := by
  unfold checkAddr8
  rw [if_pos h]

theorem checkAddr16_err {len offset addr : Nat} (h0 : addr % 2 = 0)
    (h : addr < offset ∨ (len ≠ 0 ∧ addr + 1 ≥ len + offset)) :
    checkAddr16 len offset addr = .error (.rangeError addr len) := by
  unfold checkAddr16
  rw [if_neg (by omega), if_pos h]

theorem checkAddr32_err {len offset addr : Nat} (h0 : addr % 4 = 0)
    (h : addr < offset ∨ (len ≠ 0 ∧ addr + 3 ≥ len + offset)) :
    checkAddr32 len offset addr = .error (.rangeError addr len) := by
  unfold checkAddr32
  rw [if_neg (by omega), if_pos h]

theorem checkAddr16_align {len offset addr : Nat} (h : addr % 2 ≠ 0) :
    checkAddr16 len offset addr = .error (.alignmentError addr 2) := by
  unfold checkAddr16
  rw [if_pos h]

theorem checkAddr32_align {len offset addr : Nat} (h : addr % 4 ≠ 0) :
    checkAddr32 len offset addr = .error (.alignmentError addr 4) := by
  unfold checkAddr32
  rw [if_pos h]

theorem checkAddr8_cases (len offset addr : Nat) :
    checkAddr8 len offset addr = .ok () ∨
      checkAddr8 len offset addr = .error (.rangeError addr len) := by
  unfold checkAddr8
  split
  · exact Or.inr rfl
  · exact Or.inl rfl

theorem read8_propagate {bk : Backend} {m : List Nat} {offset addr : Nat}
    {e : PciError} (h : checkAddr8 (bk.length m) offset addr = .error e) :
    read8 bk m offset addr true = .error e := by
  simp only [read8, if_pos trivial, h]

theorem read16_propagate {bk : Backend} {m : List Nat} {offset addr : Nat}
    {e : PciError} (h : checkAddr16 (bk.length m) offset addr = .error e) :
    read16 bk m offset addr true = .error e := by
  simp only [read16, if_pos trivial, h]

theorem read32_propagate {bk : Backend} {m : List Nat} {offset addr : Nat}
    {e : PciError} (h : checkAddr32 (bk.length m) offset addr = .error e) :
    read32 bk m offset addr true = .error e := by
  simp only [read32, if_pos trivial, h]

theorem write8_propagate {bk : Backend} {m : List Nat} {offset addr v : Nat}
    {e : PciError} (h : checkAddr8 (bk.length m) offset addr = .error e) :
    write8 bk m offset addr v true = .error e := by
  simp only [write8, if_pos trivial, h]

theorem write16_propagate {bk : Backend} {m : List Nat} {offset addr v : Nat}
    {e : PciError} (h : checkAddr16 (bk.length m) offset addr = .error e) :
    write16 bk m offset addr v true = .error e := by
  simp only [write16, if_pos trivial, h]

theorem write32_propagate {bk : Backend} {m : List Nat} {offset addr v : Nat}
    {e : PciError} (h : checkAddr32 (bk.length m) offset addr = .error e) :
    write32 bk m offset addr v true = .error e := by
  simp only [write32, if_pos trivial, h]

theorem read8_shape (bk : Backend) (m : List Nat) (offset addr : Nat) (c : Bool) :
    read8 bk m offset addr c = .error (.rangeError addr (bk.length m)) ∨
    read8 bk m offset addr c = .error .oob ∨
    ∃ b, read8 bk m offset addr c = .ok b := by
  unfold read8
  rcases checkAddr8_cases (bk.length m) offset addr with h | h <;> cases c <;>
    simp only [h, if_pos trivial, Bool.false_eq_true, if_false] <;>
    cases hb : bk.getByte m (addr - offset) <;>
    simp [hb]

theorem write8_shape (bk : Backend) (m : List Nat) (offset addr v : Nat) (c : Bool) :
    write8 bk m offset addr v c = .error (.rangeError addr (bk.length m)) ∨
    write8 bk m offset addr v c = .error (.valueRangeError v) ∨
    write8 bk m offset addr v c = .error .oob ∨
    ∃ m2, write8 bk m offset addr v c = .ok m2 := by
  unfold write8
  rcases checkAddr8_cases (bk.length m) offset addr with h | h <;> cases c <;>
    simp only [h, if_pos trivial, Bool.false_eq_true, if_false] <;>
    by_cases hv : 0xff < v <;>
    cases hsb : bk.setByte m (addr - offset) v <;>
    simp [hv, hsb, Nat.not_lt.mp, if_neg, Nat.not_lt]

/-- C2 (amended): for every backend and every checked access, provided the
address meets the width's alignment (the alignment check runs first and
otherwise takes precedence, see the counterexample): an address below
`baseOffset`, or — when the length is nonzero — with `addr + width - 1`
at or past `baseOffset + length`, fails with a RangeError carrying the
faulting address and the resource's length; when the length is 0 the
upper-bound check is skipped and only `addr ≥ baseOffset` is required. -/
theorem c2_bounds_checking (bk : Backend) (m : List Nat) (offset addr v : Nat) :
    (addr < offset ∨ (bk.length m ≠ 0 ∧ addr ≥ offset + bk.length m) →
      read8 bk m offset addr true = .error (.rangeError addr (bk.length m)) ∧
      write8 bk m offset addr v true = .error (.rangeError addr (bk.length m))) ∧
    (addr % 2 = 0 →
      addr < offset ∨ (bk.length m ≠ 0 ∧ addr + 1 ≥ offset + bk.length m) →
      read16 bk m offset addr true = .error (.rangeError addr (bk.length m)) ∧
      write16 bk m offset addr v true = .error (.rangeError addr (bk.length m))) ∧
    (addr % 4 = 0 →
      addr < offset ∨ (bk.length m ≠ 0 ∧ addr + 3 ≥ offset + bk.length m) →
      read32 bk m offset addr true = .error (.rangeError addr (bk.length m)) ∧
      write32 bk m offset addr v true = .error (.rangeError addr (bk.length m))) ∧
    (bk.length m = 0 → offset ≤ addr →
      checkAddr8 (bk.length m) offset addr = .ok () ∧
      (addr % 2 = 0 → checkAddr16 (bk.length m) offset addr = .ok ()) ∧
      (addr % 4 = 0 → checkAddr32 (bk.length m) offset addr = .ok ())) := by
  refine ⟨fun h => ?_, fun h0 h => ?_, fun h0 h => ?_, fun hz hge => ?_⟩
  · have hc := @checkAddr8_err (bk.length m) offset addr (by omega)
    exact ⟨read8_propagate hc, write8_propagate hc⟩
  · have hc := @checkAddr16_err (bk.length m) offset addr h0 (by omega)
    exact ⟨read16_propagate hc, write16_propagate hc⟩
  · have hc := @checkAddr32_err (bk.length m) offset addr h0 (by omega)
    exact ⟨read32_propagate hc, write32_propagate hc⟩
  · refine ⟨?_, fun h2 => ?_, fun h4 => ?_⟩
    · unfold checkAddr8
      rw [if_neg (by omega)]
    · unfold checkAddr16
      rw [if_neg (by omega), if_neg (by omega)]
    · unfold checkAddr32
      rw [if_neg (by omega), if_neg (by omega)]

/-- C3: with `check=true`, `read16`/`write16` at an address that is not a
multiple of 2 fail with an AlignmentError, and `read32`/`write32` at an
address that is not a multiple of 4 fail with an AlignmentError;
`read8`/`write8` impose no alignment requirement — their only outcomes are
success, RangeError, value-range error (write), or a raw out-of-bounds
escape, never an AlignmentError. -/
theorem c3_alignment_checking (bk : Backend) (m : List Nat) (offset addr v : Nat)
    (c : Bool) :
    (addr % 2 ≠ 0 →
      read16 bk m offset addr true = .error (.alignmentError addr 2) ∧
      write16 bk m offset addr v true = .error (.alignmentError addr 2)) ∧
    (addr % 4 ≠ 0 →
      read32 bk m offset addr true = .error (.alignmentError addr 4) ∧
      write32 bk m offset addr v true = .error (.alignmentError addr 4)) ∧
    (read8 bk m offset addr c = .error (.rangeError addr (bk.length m)) ∨
      read8 bk m offset addr c = .error .oob ∨
      ∃ b, read8 bk m offset addr c = .ok b) ∧
    (write8 bk m offset addr v c = .error (.rangeError addr (bk.length m)) ∨
      write8 bk m offset addr v c = .error (.valueRangeError v) ∨
      write8 bk m offset addr v c = .error .oob ∨
      ∃ m2, write8 bk m offset addr v c = .ok m2) := by
  refine ⟨fun h => ?_, fun h => ?_, read8_shape bk m offset addr c,
    write8_shape bk m offset addr v c⟩
  · have hc := @checkAddr16_align (bk.length m) offset addr h
    exact ⟨read16_propagate hc, write16_propagate hc⟩
  · have hc := @checkAddr32_align (bk.length m) offset addr h
    exact ⟨read32_propagate hc, write32_propagate hc⟩

/-- C7 (amended): for every resource of nonzero length and baseOffset 0,
`read32` at address `length - 1` with `check=true` always fails: with a
RangeError when `length - 1` is a multiple of 4, and with an
AlignmentError otherwise (the alignment check runs first, see the
counterexample at length 4). -/
theorem c7_read32_at_length_minus_one (bk : Backend) (m : List Nat)
    (h : bk.length m ≠ 0) :
    ((bk.length m - 1) % 4 = 0 →
      read32 bk m 0 (bk.length m - 1) true =
        .error (.rangeError (bk.length m - 1) (bk.length m))) ∧
    ((bk.length m - 1) % 4 ≠ 0 →
      read32 bk m 0 (bk.length m - 1) true =
        .error (.alignmentError (bk.length m - 1) 4)) := by
  constructor
  · intro h4
    exact read32_propagate (checkAddr32_err h4 (by omega))
  · intro h4
    exact read32_propagate (checkAddr32_align h4)

/-- C4: every read/write indexes the backing store at byte index
`addr - baseOffset` (`_mmapOffset`), and with `check=false` no validation
at all is performed before that translated access — each operation is
exactly the raw backend access at `addr - offset`; in particular, on a
mapping with a non-zero start offset, address `offset` itself accesses
byte 0 of the mapped region (with or without checking). -/
theorem c4_offset_translation (bk : Backend) (m : List Nat) (offset addr v b : Nat)
    (rest : List Nat) (c : Bool) :
    read8 bk m offset addr false = (match bk.getByte m (addr - offset) with
      | some x => .ok x
      | none => .error .oob) ∧
    read16 bk m offset addr false =
      (match unpack16 (bk.getRange m (addr - offset) (addr - offset + 2)) with
      | some x => .ok x
      | none => .error .oob) ∧
    read32 bk m offset addr false =
      (match unpack32 (bk.getRange m (addr - offset) (addr - offset + 4)) with
      | some x => .ok x
      | none => .error .oob) ∧
    write8 bk m offset addr v false =
      (if v ≤ 0xff then
        match bk.setByte m (addr - offset) v with
        | some m2 => .ok m2
        | none => .error .oob
       else .error .oob) ∧
    write16 bk m offset addr v false =
      (match pack16 v with
       | none => .error .oob
       | some bs =>
         match bk.setRange m (addr - offset) (addr - offset + 2) bs with
         | some m2 => .ok m2
         | none => .error .oob) ∧
    write32 bk m offset addr v false =
      (match pack32 v with
       | none => .error .oob
       | some bs =>
         match bk.setRange m (addr - offset) (addr - offset + 4) bs with
         | some m2 => .ok m2
         | none => .error .oob) ∧
    read8 mmapBackend (b :: rest) offset offset c = .ok b ∧
    read8 pseudoBackend (b :: rest) offset offset c = .ok b := by
  refine ⟨rfl, rfl, rfl, rfl, rfl, rfl, ?_, ?_⟩
  · cases c with
    | false => simp [read8, mmapBackend]
    | true =>
      have hc : checkAddr8 (rest.length + 1) offset offset = .ok () :=
        checkAddr8_ok le_rfl (by omega)
      simp [read8, hc, mmapBackend]
  · have hpl : pseudoLen (b :: rest) = rest.length + 1 := by
      unfold pseudoLen
      simp
    cases c with
    | false => simp [read8, pseudoBackend]
    | true =>
      have hc : checkAddr8 (rest.length + 1) offset offset = .ok () :=
        checkAddr8_ok le_rfl (by omega)
      simp [read8, hc, pseudoBackend, hpl]

/-- C5: `Address` construction from numeric fields succeeds precisely when
`bus ≤ 0x100`, `slot ≤ 0x1f` and `function ≤ 7`, and otherwise fails with
the construction-time range failure (no silent clamp); in particular it
fails for slot=0x20, for function=8 and for bus=0x101. -/
theorem c5_field_ranges (d b s f : Nat) :
    (b ≤ 0x100 ∧ s ≤ 0x1f ∧ f ≤ 7 → Address.fromFields d b s f = .ok ⟨d, b, s, f⟩) ∧
    (¬(b ≤ 0x100 ∧ s ≤ 0x1f ∧ f ≤ 7) →
      Address.fromFields d b s f = .error .fieldRangeError) ∧
    Address.fromFields 0 0 0x20 0 = .error .fieldRangeError ∧
    Address.fromFields 0 0 0 8 = .error .fieldRangeError ∧
    Address.fromFields 0 0x101 0 0 = .error .fieldRangeError := by
  refine ⟨fun h => ?_, fun h => ?_, by decide, by decide, by decide⟩
  · unfold Address.fromFields
    rw [if_pos h]
  · unfold Address.fromFields
    rw [if_neg h]

/-- C9: for addresses with valid fields, `devfn` is `(slot << 3) | function
= 8 * slot + function`, lies in `0..=0xff`, and slot and function are
uniquely recoverable (`devfn / 8` and `devfn % 8`), so the packing is
injective over the valid ranges. -/
theorem c9_devfn_packing (a b : Address) (hs : a.slot ≤ 0x1f) (hf : a.function ≤ 7)
    (hs2 : b.slot ≤ 0x1f) (hf2 : b.function ≤ 7) :
    a.devfn = 8 * a.slot + a.function ∧ a.devfn ≤ 0xff ∧
    a.devfn / 8 = a.slot ∧ a.devfn % 8 = a.function ∧
    (a.devfn = b.devfn → a.slot = b.slot ∧ a.function = b.function) := by
  have key : ∀ s < 32, ∀ f < 8, ((s : Nat) <<< 3) ||| f = 8 * s + f := by decide
  have ka := key a.slot (by omega) a.function (by omega)
  have kb := key b.slot (by omega) b.function (by omega)
  unfold Address.devfn
  refine ⟨ka, by omega, by omega, by omega, fun he => ?_⟩
  rw [ka, kb] at he
  omega

/-- C10: the emulated backend never reports length 0 — its length is the
backing file's size when nonzero and `sys.maxsize` when the size is 0;
consequently for a size-0 file the `Resource` upper-bound check runs
against `maxsize` instead of being skipped (at address `maxsize` it
fails, while a genuine length-0 check would pass). -/
theorem c10_pseudo_length_sentinel (m : List Nat) :
    pseudoBackend.length m ≠ 0 ∧
    (m.length ≠ 0 → pseudoBackend.length m = m.length) ∧
    (m.length = 0 → pseudoBackend.length m = maxsize) ∧
    (m.length = 0 →
      checkAddr8 (pseudoBackend.length m) 0 maxsize =
        .error (.rangeError maxsize maxsize) ∧
      checkAddr8 0 0 maxsize = .ok ()) := by
  have hms : maxsize ≠ 0 := by decide
  refine ⟨?_, fun h => ?_, fun h => ?_, fun h => ⟨?_, ?_⟩⟩
  · show pseudoLen m ≠ 0
    unfold pseudoLen
    split
    · exact hms
    · next hcond => simpa using hcond
  · show pseudoLen m = m.length
    unfold pseudoLen
    rw [if_neg h]
  · show pseudoLen m = maxsize
    unfold pseudoLen
    rw [if_pos h]
  · show checkAddr8 (pseudoLen m) 0 maxsize = .error (.rangeError maxsize maxsize)
    unfold pseudoLen
    rw [if_pos h]
    unfold checkAddr8
    rw [if_pos (by omega)]
  · unfold checkAddr8
    rw [if_neg (by omega)]

/-- C8 (amended): an input string that does not match the regex shape —
word-character components arranged as `[[D:]B:]S[.F]` for `Address` and
`V:D` for `Id` — fails with a FormatError, and so does an input any of
whose matched components `int(s, 16)` cannot parse (for `Address` the
domain, bus, slot or function component, for `Id` either component, e.g.
`Id("zz:11")`); but the accepted shape is looser than hexadecimal digit
runs: a component may carry a `0x`/`0X` mark and the `$` anchor tolerates
one trailing newline (see the counterexample), so not every input outside
the claimed grammar is rejected. -/
theorem c8_format_error (s : List Char) (g : AddrGroups)
    (p : List Char × List Char) :
    (matchAddrRegex s = none → Address.fromString s = .error .formatError) ∧
    (matchIdRegex s = none → PciId.fromString s = .error .formatError) ∧
    (matchAddrRegex s = some g →
      hexnum? g.dom = none ∨ hexnum? g.bus = none ∨ pyHex g.slot = none ∨
        hexnum? g.fn = none →
      Address.fromString s = .error .formatError) ∧
    (matchIdRegex s = some p → pyHex p.1 = none ∨ pyHex p.2 = none →
      PciId.fromString s = .error .formatError) := by
  refine ⟨fun h => ?_, fun h => ?_, fun hg h => ?_, fun hp h => ?_⟩
  · unfold Address.fromString
    rw [h]
  · unfold PciId.fromString
    rw [h]
  · unfold Address.fromString
    rw [hg]
    cases h1 : hexnum? g.dom <;> cases h2 : hexnum? g.bus <;>
      cases h3 : pyHex g.slot <;> cases h4 : hexnum? g.fn <;>
      simp_all
  · unfold PciId.fromString
    rw [hp]
    cases h1 : pyHex p.1 <;> cases h2 : pyHex p.2 <;> simp_all

/-- C6: constructing an `Address` from the canonical string `DDDD:BB:SS.F`
of an `Address` with valid fields yields an equal `Address` (round-trip);
likewise `Id("8086:1533")` has vendor `0x8086` and device `0x1533`, and
`str(Id(0x8086, 0x1533))` is `"8086:1533"`. -/
theorem c6_canonical_roundtrip :
    (∀ a : Address, a.domain ≤ 0xffff → a.bus ≤ 0x100 → a.slot ≤ 0x1f →
      a.function ≤ 7 → Address.fromString a.toStr = .ok a) ∧
    PciId.fromString (['8', '0', '8', '6', ':', '1', '5', '3', '3']) =
      .ok ⟨0x8086, 0x1533⟩ ∧
    PciId.toStr ⟨0x8086, 0x1533⟩ = ['8', '0', '8', '6', ':', '1', '5', '3', '3'] :=
  ⟨fun a _ hb hs hf => fromString_toStr a hb hs hf, by decide, by decide⟩

/-- C1: for both resource backends (direct mapping and emulated), every
4-aligned in-bounds address and every `v ≤ 0xffffffff`: after
`write32(addr, v)`, `read32(addr)` returns `v` and `read8(addr)` returns
the least-significant byte `v % 256` — values are stored little-endian. -/
theorem c1_little_endian_roundtrip (m : List Nat) (offset addr v : Nat)
    (h1 : offset ≤ addr) (h2 : addr % 4 = 0) (h3 : addr + 4 ≤ offset + m.length)
    (hv : v ≤ 0xffffffff) :
    (∃ m2, write32 mmapBackend m offset addr v true = .ok m2 ∧
      read32 mmapBackend m2 offset addr true = .ok v ∧
      read8 mmapBackend m2 offset addr true = .ok (v % 256)) ∧
    (∃ m2, write32 pseudoBackend m offset addr v true = .ok m2 ∧
      read32 pseudoBackend m2 offset addr true = .ok v ∧
      read8 pseudoBackend m2 offset addr true = .ok (v % 256)) :=
  ⟨mmap_c1 m offset addr v h1 h2 h3 hv, pseudo_c1 m offset addr v h1 h2 h3 hv⟩

/-- Witness for C1 at `v = 0x12345678`: `read32` returns the value back and
`read8` returns `0x78`. -/
theorem c1_witness :
    (∃ m2, write32 mmapBackend (List.replicate 8 0) 0 4 0x12345678 true = .ok m2 ∧
      read32 mmapBackend m2 0 4 true = .ok 0x12345678 ∧
      read8 mmapBackend m2 0 4 true = .ok 0x78) ∧
    (∃ m2, write32 pseudoBackend (List.replicate 8 0) 0 4 0x12345678 true = .ok m2 ∧
      read32 pseudoBackend m2 0 4 true = .ok 0x12345678 ∧
      read8 pseudoBackend m2 0 4 true = .ok 0x78) :=
  c1_little_endian_roundtrip (List.replicate 8 0) 0 4 0x12345678 (by decide)
    (by decide) (by decide) (by decide)

/-- Counterexample to C2 as stated: at `addr = 1 < baseOffset = 4` on a
length-8 resource, `read16` fails with `AlignmentError`, not with the
RangeError the claim requires (`rangeError 1 8`). -/
theorem c2_counterexample :
    read16 mmapBackend (List.replicate 8 0) 4 1 true =
      .error (.alignmentError 1 2) ∧
    PciError.alignmentError 1 2 ≠ PciError.rangeError 1 8 := by decide

/-- Witness for C2 at concrete widths, addresses and lengths. -/
theorem c2_witness :
    read8 mmapBackend (List.replicate 8 0) 4 2 true = .error (.rangeError 2 8) ∧
    read16 mmapBackend (List.replicate 8 0) 0 8 true = .error (.rangeError 8 8) ∧
    write32 mmapBackend (List.replicate 8 0) 0 8 7 true = .error (.rangeError 8 8) ∧
    checkAddr8 (mmapBackend.length ([] : List Nat)) 0 999 = .ok () :=
  ⟨((c2_bounds_checking mmapBackend (List.replicate 8 0) 4 2 0).1
      (Or.inl (by decide))).1,
   ((c2_bounds_checking mmapBackend (List.replicate 8 0) 0 8 0).2.1 (by decide)
      (Or.inr (by decide))).1,
   ((c2_bounds_checking mmapBackend (List.replicate 8 0) 0 8 7).2.2.1 (by decide)
      (Or.inr (by decide))).2,
   ((c2_bounds_checking mmapBackend ([] : List Nat) 0 999 0).2.2.2 (by decide)
      (by decide)).1⟩

/-- Witness for C3: `read16` at odd address 1 and `write32` at address 2. -/
theorem c3_witness :
    read16 mmapBackend (List.replicate 8 0) 0 1 true =
      .error (.alignmentError 1 2) ∧
    write32 mmapBackend (List.replicate 8 0) 0 2 5 true =
      .error (.alignmentError 2 4) :=
  ⟨((c3_alignment_checking mmapBackend (List.replicate 8 0) 0 1 5 true).1
      (by decide)).1,
   ((c3_alignment_checking mmapBackend (List.replicate 8 0) 0 2 5 true).2.1
      (by decide)).2⟩

/-- Witness for C5: maximal valid fields succeed; slot=0x20 fails. -/
theorem c5_witness :
    Address.fromFields 0 0x100 0x1f 7 = .ok ⟨0, 0x100, 0x1f, 7⟩ ∧
    Address.fromFields 0 0 0x20 0 = .error .fieldRangeError :=
  ⟨(c5_field_ranges 0 0x100 0x1f 7).1 (by decide),
   (c5_field_ranges 0 0 0x20 0).2.2.1⟩

/-- Witness for C6 at domain 0x1a2b, bus 0x100, slot 0x1f, function 7. -/
theorem c6_witness :
    Address.fromString (Address.toStr ⟨0x1a2b, 0x100, 0x1f, 7⟩) =
      .ok ⟨0x1a2b, 0x100, 0x1f, 7⟩ :=
  c6_canonical_roundtrip.1 ⟨0x1a2b, 0x100, 0x1f, 7⟩ (by decide) (by decide)
    (by decide) (by decide)

/-- Counterexample to C7 as stated: on a resource of length 4, `read32` at
`length - 1 = 3` fails with `AlignmentError`, not with the RangeError the
claim requires. -/
theorem c7_counterexample :
    read32 mmapBackend (List.replicate 4 0) 0 3 true =
      .error (.alignmentError 3 4) ∧
    PciError.alignmentError 3 4 ≠ PciError.rangeError 3 4 := by decide

/-- Witness for C7 on a length-5 resource: `read32` at 4 gives RangeError. -/
theorem c7_witness :
    read32 mmapBackend (List.replicate 5 0) 0 4 true = .error (.rangeError 4 5) :=
  (c7_read32_at_length_minus_one mmapBackend (List.replicate 5 0) (by decide)).1
    (by decide)

/-- Counterexample to C8 as stated: `"0x1a"` contains `x`, which is not a
hexadecimal digit, so the string is not made of hexadecimal digit runs,
yet `Address` construction succeeds (slot `0x1a`); likewise `"1f\n"` with
its trailing newline is outside the claimed grammar, yet construction
succeeds because Python's `$` anchor matches before a trailing newline —
both force the looser shape in the amended claim. -/
theorem c8_counterexample :
    Address.fromString (['0', 'x', '1', 'a']) = .ok ⟨0, 0, 0x1a, 0⟩ ∧
    hexVal? 'x' = none ∧
    Address.fromString (['1', 'f', '\n']) = .ok ⟨0, 0, 0x1f, 0⟩ := by decide

/-- Witness for C8: a string with an empty leading component and an `Id`
string without a colon fail the regexes; `"zz"` and `"zz:11"` match the
regexes but their `zz` component fails `int(s, 16)` — all four end in
FormatError. -/
theorem c8_witness :
    Address.fromString ([':', '1', 'f']) = .error .formatError ∧
    PciId.fromString (['8', '0', '8', '6']) = .error .formatError ∧
    Address.fromString (['z', 'z']) = .error .formatError ∧
    PciId.fromString (['z', 'z', ':', '1', '1']) = .error .formatError :=
  ⟨(c8_format_error ([':', '1', 'f']) ⟨none, none, [], none⟩ ([], [])).1
     (by decide),
   (c8_format_error (['8', '0', '8', '6']) ⟨none, none, [], none⟩ ([], [])).2.1
     (by decide),
   (c8_format_error (['z', 'z']) ⟨none, none, ['z', 'z'], none⟩ ([], [])).2.2.1
     (by decide) (Or.inr (Or.inr (Or.inl (by decide)))),
   (c8_format_error (['z', 'z', ':', '1', '1']) ⟨none, none, [], none⟩
     (['z', 'z'], ['1', '1'])).2.2.2 (by decide) (Or.inl (by decide))⟩

/-- Witness for C9 at slot 0x1f, function 7: devfn is 0xff. -/
theorem c9_witness :
    (Address.mk 0 0 0x1f 7).devfn = 8 * 0x1f + 7 ∧
    (Address.mk 0 0 0x1f 7).devfn / 8 = 0x1f :=
  ⟨(c9_devfn_packing ⟨0, 0, 0x1f, 7⟩ ⟨0, 0, 0, 0⟩ (by decide) (by decide)
      (by decide) (by decide)).1,
   (c9_devfn_packing ⟨0, 0, 0x1f, 7⟩ ⟨0, 0, 0, 0⟩ (by decide) (by decide)
      (by decide) (by decide)).2.2.1⟩

/-- Witness for C10 on an empty and a one-byte backing file. -/
theorem c10_witness :
    pseudoBackend.length ([] : List Nat) = maxsize ∧
    pseudoBackend.length [5] = 1 ∧
    checkAddr8 (pseudoBackend.length ([] : List Nat)) 0 maxsize =
      .error (.rangeError maxsize maxsize) :=
  ⟨(c10_pseudo_length_sentinel []).2.2.1 rfl,
   (c10_pseudo_length_sentinel [5]).2.1 (by decide),
   ((c10_pseudo_length_sentinel []).2.2.2 rfl).1⟩
